import Mathlib

/-!
Verification of the client-side synchronization core of the Scopa frontend.

The development shallowly embeds:
* the Svelte stores of `src/lib/stores/game.js` (one `ClientState` record);
* the WebSocket client `src/lib/ws.js` (`connect`, `disconnect`, `dispatch`,
  `wsSend`, scopa detection);
* the interaction handlers of `GameBoard.svelte` (`handleHandCard`,
  `handleTableCard`, `executePlay`, `cancelSelection`, and the reactive
  statement that clears `pendingTableIds` whenever `selectedCard` is null).

Timers (`setTimeout`) are not modelled as scheduled actions; the delay a
timer is created with is recorded on the emitted event instead.  `close()`
on a socket is modelled as taking effect synchronously.
-/

/-- Connection status: the value space of the `wsStatus` store
(`stores/game.js`). -/
inductive WsStatus
  | disconnected
  | connecting
  | connected
  | waiting
deriving DecidableEq

/-- The readyState of a browser WebSocket, reduced to the phases this client
can observe.  `opened` stands for `WebSocket.OPEN`. -/
inductive ReadyState
  | connecting
  | opened
  | closed
deriving DecidableEq

/-- Value space of the `dealType` store: full 10-card deal vs hands-only
refill. -/
inductive DealType
  | full
  | hands
deriving DecidableEq

/-- A card as the frontend sees it (`Card.svelte` props). -/
structure Card where
  id : String
  suit : String
  value : Nat
deriving DecidableEq

/-- Per-player info inside the server state payload. -/
structure PlayerInfo where
  hand_count : Nat
  captured_count : Nat
  scopas : Nat
deriving DecidableEq

/-- The authoritative game state pushed by the server (`msg.state`).
Mappings are association lists keyed by player id. -/
structure GameState where
  phase : String
  table : List Card
  players : List (String × PlayerInfo)
  scores : List (String × Int)
  deck_remaining : Nat
  is_human_turn : Bool
  human_hand : List Card
deriving DecidableEq

/-- Payload of a `round_over` message. -/
structure RoundOver where
  round_number : Nat
  round_scores : List (String × Int)
  cumulative : List (String × Int)
deriving DecidableEq

/-- An ephemeral scopa event: the value stored in `lastScopaBy` plus the
delay of the `setTimeout` that clears it. -/
structure ScopaEvent where
  player_id : String
  is_mine : Bool
  expiry : Nat
deriving DecidableEq

/-- Inbound protocol messages (`_dispatch` switch in `ws.js`). -/
inductive InMsg
  | waiting
  | game_started (opponent_id : Option String) (round : Option Nat)
  | cards_dealt (round : Option Nat)
  | state (st : GameState)
  | captures (options : List (List String))
  | round_over (payload : RoundOver)
  | error (message : String)
  | opponent_disconnected
  | pong
  | unknown (ty : String)
deriving DecidableEq

/-- Outbound protocol messages (`sendPlay` / `sendGetCaptures`). -/
inductive OutMsg
  | play (card_id : String) (capture_ids : List String)
  | get_captures (card_id : String)
deriving DecidableEq

/-- The whole client state: the stores of `stores/game.js`, the module-level
`_ws` / `_myPlayerId` of `ws.js`, and the component-local `pendingTableIds`
of `GameBoard.svelte`.  `sockets` records every WebSocket ever created
(paired with its readyState) so connection exclusivity can be stated. -/
structure ClientState where
  myPlayerId : Option String
  opponentId : Option String
  joinCode : Option String
  wsStatus : WsStatus
  ws : Option Nat
  sockets : List (Nat × ReadyState)
  nextId : Nat
  gameState : Option GameState
  selectedCard : Option Card
  captureOptions : List (List String)
  roundResult : Option RoundOver
  errorMessage : Option String
  isWaiting : Bool
  isDealing : Bool
  roundNumber : Nat
  dealType : DealType
  capturesLoaded : Bool
  lastScopaBy : Option ScopaEvent
  pendingTableIds : Finset String
deriving DecidableEq

/-- The derived store `isMyTurn` (`stores/game.js`):
`$gs?.is_human_turn ?? false`. -/
def isMyTurn (s : ClientState) : Bool :=
  match s.gameState with
  | some gs => gs.is_human_turn
  | none => false

/-- `capturableIds` (`GameBoard.svelte`): flat set of all card ids appearing
in any capture option (`$captureOptions.flat()`). -/
def capturableIds (s : ClientState) : List String :=
  s.captureOptions.flatten

/-- One toggle of an id's membership in the pending set
(`next.delete` / `next.add` in `handleTableCard`). -/
def toggleId (pending : Finset String) (id : String) : Finset String :=
  if id ∈ pending then pending.erase id else insert id pending

/-- The exact-match search of `handleTableCard`:
`$captureOptions.find(opt => opt.length === pendingArr.length &&
pendingArr.every(id => opt.includes(id)))`. -/
def findExactMatch (options : List (List String)) (pending : Finset String) :
    Option (List String) :=
  options.find? fun opt =>
    opt.length == pending.card && decide (∀ id ∈ pending, id ∈ opt)

/-- The fields written by `executePlay` / `cancelSelection`
(`GameBoard.svelte`): selection, options, loaded flag, pending set. -/
def clearInteraction (s : ClientState) : ClientState :=
  { s with selectedCard := none, captureOptions := [], capturesLoaded := false,
           pendingTableIds := ∅ }

/-- `executePlay(cardId, captIds)` (`GameBoard.svelte`): send the play and
clear the interaction state.  The outbound message intent is returned. -/
def executePlay (s : ClientState) (cardId : String) (captIds : List String) :
    ClientState × List OutMsg :=
  (clearInteraction s, [OutMsg.play cardId captIds])

/-- `cancelSelection()` (`GameBoard.svelte`). -/
def cancelSelection (s : ClientState) : ClientState :=
  clearInteraction s

/-- `handleHandCard(card)` (`GameBoard.svelte`). -/
def handleHandCard (s : ClientState) (card : Card) : ClientState × List OutMsg :=
  if !isMyTurn s then (s, [])
  else if s.selectedCard.map Card.id = some card.id then
    if s.captureOptions.length = 0 then
      executePlay s card.id []
    else
      (cancelSelection s, [])
  else
    ({ s with selectedCard := some card, captureOptions := [],
              capturesLoaded := false, pendingTableIds := ∅ },
     [OutMsg.get_captures card.id])

/-- `handleTableCard(card)` (`GameBoard.svelte`). -/
def handleTableCard (s : ClientState) (card : Card) : ClientState × List OutMsg :=
  match s.selectedCard with
  | none => (s, [])
  | some sel =>
    if !isMyTurn s then (s, [])
    else if ¬(card.id ∈ capturableIds s ∨ card.id ∈ s.pendingTableIds) then (s, [])
    else
      let next := toggleId s.pendingTableIds card.id
      let s1 := { s with pendingTableIds := next }
      match findExactMatch s.captureOptions next with
      | some opt => executePlay s1 sel.id opt
      | none => (s1, [])

/-- Delay of the `setTimeout` that clears `lastScopaBy` (2500 ms in
`ws.js`). -/
def scopaToastMs : Nat := 2500

/-- `prev.players?.[pid]?.scopas ?? 0` in the scopa detection loop. -/
def oldScopas (prev : GameState) (pid : String) : Nat :=
  match prev.players.lookup pid with
  | some pi => pi.scopas
  | none => 0

/-- The scopa events produced for a given list of player entries of the new
state (the loop body of the `state` case in `ws.js`). -/
def scopaEvents (myId : Option String) (prev : GameState)
    (entries : List (String × PlayerInfo)) : List ScopaEvent :=
  (entries.filter fun e => oldScopas prev e.1 < e.2.scopas).map fun e =>
    { player_id := e.1, is_mine := some e.1 == myId, expiry := scopaToastMs }

/-- The sweep (scopa) diff run on every `state` message: no previous state
means no events; otherwise one event per player of the new state whose
scopa count exceeds its old count. -/
def detectScopas (myId : Option String) (prev : Option GameState)
    (st : GameState) : List ScopaEvent :=
  match prev with
  | none => []
  | some p => scopaEvents myId p st.players

/-- Last event of the diff if any, otherwise the previous store value
(each detection overwrites `lastScopaBy`). -/
def lastOr (evs : List ScopaEvent) (old : Option ScopaEvent) : Option ScopaEvent :=
  match evs.getLast? with
  | some e => some e
  | none => old

/-- JS truthiness update for `if (msg.opponent_id) opponentId.set(...)`:
an absent or empty string leaves the store unchanged. -/
def updOpponent (old : Option String) (oid : Option String) : Option String :=
  match oid with
  | some o => if o = "" then old else some o
  | none => old

/-- JS truthiness update for `if (msg.round) roundNumber.set(...)`:
an absent or zero round leaves the store unchanged. -/
def updRound (old : Nat) (rnd : Option Nat) : Nat :=
  match rnd with
  | some r => if r = 0 then old else r
  | none => old

/-- `_dispatch(msg)` of `ws.js`.  Returns the new store state together with
the list of scopa events emitted while handling the message. -/
def dispatch (s : ClientState) (m : InMsg) : ClientState × List ScopaEvent :=
  match m with
  | .waiting =>
      ({ s with isWaiting := true, wsStatus := .waiting }, [])
  | .game_started oid rnd =>
      ({ s with isWaiting := false, wsStatus := .connected,
                opponentId := updOpponent s.opponentId oid,
                roundNumber := updRound s.roundNumber rnd,
                selectedCard := none, captureOptions := [],
                capturesLoaded := false, roundResult := none,
                gameState := none, dealType := .full, isDealing := true }, [])
  | .cards_dealt rnd =>
      ({ s with roundNumber := updRound s.roundNumber rnd,
                selectedCard := none, captureOptions := [],
                capturesLoaded := false, dealType := .hands,
                isDealing := true }, [])
  | .state st =>
      let evs := detectScopas s.myPlayerId s.gameState st
      ({ s with lastScopaBy := lastOr evs s.lastScopaBy,
                gameState := some st, errorMessage := none, roundResult := none,
                selectedCard := if st.is_human_turn then s.selectedCard else none,
                captureOptions := if st.is_human_turn then s.captureOptions else [],
                capturesLoaded := if st.is_human_turn then s.capturesLoaded else false },
       evs)
  | .captures opts =>
      ({ s with captureOptions := opts, capturesLoaded := true }, [])
  | .round_over p =>
      ({ s with roundResult := some p, captureOptions := [],
                capturesLoaded := false, selectedCard := none }, [])
  | .error msg =>
      ({ s with errorMessage := some msg }, [])
  | .opponent_disconnected =>
      ({ s with wsStatus := .disconnected,
                errorMessage := some "Opponent disconnected." }, [])
  | .pong => (s, [])
  | .unknown _ => (s, [])

/-- The reactive statement of `GameBoard.svelte`:
`$: if ($selectedCard === null) pendingTableIds = new Set()`. -/
def reconcile (s : ClientState) : ClientState :=
  if s.selectedCard = none then { s with pendingTableIds := ∅ } else s

/-- An inbound message as observed through the component: dispatch then the
reactive clearing of the pending set. -/
def stepRecv (s : ClientState) (m : InMsg) : ClientState × List ScopaEvent :=
  let r := dispatch s m
  (reconcile r.1, r.2)

/-- Mark socket `i` with readyState `rs` in the socket table. -/
def setSockState (sockets : List (Nat × ReadyState)) (i : Nat) (rs : ReadyState) :
    List (Nat × ReadyState) :=
  sockets.map fun p => if p.1 = i then (p.1, rs) else p

/-- `connect(sessionId, playerId)` of `ws.js`: cache the player id, close
any existing socket, then open a fresh one and set status `connecting`.
The session id only feeds the URL, which is not modelled. -/
def connect (s : ClientState) (_sessionId playerId : String) : ClientState :=
  let s0 := { s with myPlayerId := some playerId }
  let s1 := match s0.ws with
    | some i => { s0 with sockets := setSockState s0.sockets i .closed, ws := none }
    | none => s0
  { s1 with wsStatus := .connecting, ws := some s1.nextId,
            sockets := s1.sockets ++ [(s1.nextId, .connecting)],
            nextId := s1.nextId + 1 }

/-- `disconnect()` of `ws.js`. -/
def disconnect (s : ClientState) : ClientState :=
  match s.ws with
  | some i => { s with sockets := setSockState s.sockets i .closed, ws := none }
  | none => s

/-- Transport `onopen` for socket `i`: only a connecting socket can open;
its handler sets status `connected`. -/
def onOpen (s : ClientState) (i : Nat) : ClientState :=
  if s.sockets.lookup i = some ReadyState.connecting then
    { s with sockets := setSockState s.sockets i .opened, wsStatus := .connected }
  else s

/-- Transport `onclose` for socket `i`: the socket is closed and its
handler sets status `disconnected`. -/
def onCloseEvent (s : ClientState) (i : Nat) : ClientState :=
  if (s.sockets.lookup i).isSome then
    { s with sockets := setSockState s.sockets i .closed, wsStatus := .disconnected }
  else s

/-- Transport `onerror`: the handler only forces status `disconnected`. -/
def onErrorEvent (s : ClientState) : ClientState :=
  { s with wsStatus := .disconnected }

/-- Result of a `_send` call: either the serialized frame went out, or the
call was skipped with a `console.warn` diagnostic. -/
inductive SendEffect
  | transmitted (m : OutMsg)
  | skippedLog (m : OutMsg)
deriving DecidableEq

/-- `_send(msg)` of `ws.js`: transmit only if a socket exists and its
readyState is OPEN, otherwise log and drop. -/
def wsSend (s : ClientState) (m : OutMsg) : SendEffect :=
  match s.ws with
  | some i =>
      if s.sockets.lookup i = some ReadyState.opened then .transmitted m
      else .skippedLog m
  | none => .skippedLog m

/-- True when the current socket exists and is OPEN. -/
def socketOpen (s : ClientState) : Bool :=
  match s.ws with
  | some i => s.sockets.lookup i = some ReadyState.opened
  | none => false

/-- Every operation the boundary can perform on the client.  `setJoinCode`
is the page-level write to the `joinCode` store (home page / game page);
`sendRaw` is a bare `_send`, which never mutates state. -/
inductive ClientAction
  | connect (sessionId playerId : String)
  | disconnect
  | sockOpen (i : Nat)
  | sockClose (i : Nat)
  | sockError
  | recv (m : InMsg)
  | tapHand (c : Card)
  | tapTable (c : Card)
  | cancelTap
  | sendRaw (m : OutMsg)
  | setJoinCode (c : Option String)
deriving DecidableEq

/-- One step of the client, discarding outputs.  Component handlers are
followed by the reactive reconciliation of `pendingTableIds`. -/
def step (s : ClientState) (a : ClientAction) : ClientState :=
  match a with
  | .connect sid pid => connect s sid pid
  | .disconnect => disconnect s
  | .sockOpen i => onOpen s i
  | .sockClose i => onCloseEvent s i
  | .sockError => onErrorEvent s
  | .recv m => (stepRecv s m).1
  | .tapHand c => reconcile (handleHandCard s c).1
  | .tapTable c => reconcile (handleTableCard s c).1
  | .cancelTap => reconcile (cancelSelection s)
  | .sendRaw _ => s
  | .setJoinCode c => { s with joinCode := c }

/-- The state at page load: the initial values of all stores. -/
def initState : ClientState :=
  { myPlayerId := none, opponentId := none, joinCode := none,
    wsStatus := .disconnected, ws := none, sockets := [], nextId := 0,
    gameState := none, selectedCard := none, captureOptions := [],
    roundResult := none, errorMessage := none, isWaiting := false,
    isDealing := false, roundNumber := 1, dealType := .full,
    capturesLoaded := false, lastScopaBy := none, pendingTableIds := ∅ }

/-- Run a sequence of actions from a state. -/
def run (s : ClientState) (acts : List ClientAction) : ClientState :=
  acts.foldl step s

/-! ## Generic lemmas about the capture-match predicate -/

/-- The boolean match predicate of `handleTableCard` holds exactly when the
option has the pending set's cardinality and the same elements: since the
pending set has no duplicates, `opt.length === pending.size` together with
`pending ⊆ opt` forces the option to be duplicate-free and set-equal. -/
lemma match_pred_iff (opt : List String) (pending : Finset String) :
    (opt.length == pending.card && decide (∀ id ∈ pending, id ∈ opt)) = true ↔
    opt.length = pending.card ∧ opt.toFinset = pending := by
  rw [Bool.and_eq_true, beq_iff_eq, decide_eq_true_iff]
  constructor
  · rintro ⟨hlen, hsub⟩
    have hsub' : pending ⊆ opt.toFinset := fun id hid => List.mem_toFinset.mpr (hsub id hid)
    have hcard : opt.toFinset.card ≤ pending.card := hlen ▸ opt.toFinset_card_le
    exact ⟨hlen, (Finset.eq_of_subset_of_card_le hsub' hcard).symm⟩
  · rintro ⟨hlen, heq⟩
    exact ⟨hlen, fun id hid => List.mem_toFinset.mp (heq ▸ hid)⟩

/-- If some option equals the pending set (same elements, same cardinality),
the `find` of `handleTableCard` returns a first such option. -/
lemma findExactMatch_some_of_exists (options : List (List String)) (pending : Finset String)
    (h : ∃ opt ∈ options, opt.length = pending.card ∧ opt.toFinset = pending) :
    ∃ opt, findExactMatch options pending = some opt ∧ opt ∈ options ∧
      opt.length = pending.card ∧ opt.toFinset = pending := by
  obtain ⟨opt, hmem, hp⟩ := h
  have hsome : (findExactMatch options pending).isSome := by
    rw [findExactMatch, List.find?_isSome]
    exact ⟨opt, hmem, (match_pred_iff opt pending).mpr hp⟩
  obtain ⟨opt', hfind⟩ := Option.isSome_iff_exists.mp hsome
  have hpred := List.find?_some hfind
  have hmem' := List.mem_of_find?_eq_some hfind
  exact ⟨opt', hfind, hmem', (match_pred_iff opt' pending).mp hpred⟩

/-- If no option equals the pending set, the `find` comes back empty. -/
lemma findExactMatch_none_of_forall (options : List (List String)) (pending : Finset String)
    (h : ∀ opt ∈ options, ¬(opt.length = pending.card ∧ opt.toFinset = pending)) :
    findExactMatch options pending = none := by
  rw [findExactMatch, List.find?_eq_none]
  intro opt hmem hpred
  exact h opt hmem ((match_pred_iff opt pending).mp hpred)

/-! ## Concrete fixtures used by witnesses and counterexamples -/

def exCardH1 : Card := { id := "h1", suit := "oro", value := 7 }

def exCardC1 : Card := { id := "c1", suit := "coppe", value := 3 }

def exCardC2 : Card := { id := "c2", suit := "spade", value := 4 }

/-- A server state where it is the local player's turn. -/
def exTurnState : GameState :=
  { phase := "playing", table := [exCardC1, exCardC2],
    players := [("A", ⟨3, 0, 0⟩), ("B", ⟨3, 0, 0⟩)],
    scores := [("A", 0), ("B", 0)], deck_remaining := 30,
    is_human_turn := true, human_hand := [exCardH1] }

/-- A client mid-selection: hand card selected, options received, one table
card already pending. -/
def exSelState : ClientState :=
  { initState with myPlayerId := some "A", gameState := some exTurnState,
                   selectedCard := some exCardH1,
                   captureOptions := [["c1", "c2"], ["c3"]],
                   capturesLoaded := true,
                   pendingTableIds := {"c1"} }

/-! ## C1 -/

/-- Claim C1: when a `toggleTableItem` call passes its guards (a hand item
is selected, it is the local turn, the tapped item is capturable or already
pending), then: if the toggled pending set equals some capture option as a
set with the same cardinality, exactly one play is executed carrying a
matching option's ids and the interaction state is cleared; and if no
option equals the toggled pending set (in particular whenever it is only a
strict partial subset of every option), no play is executed. -/
theorem handleTableCard_exact_match_executes (s : ClientState) (card sel : Card)
    (hsel : s.selectedCard = some sel) (hturn : isMyTurn s = true)
    (hguard : card.id ∈ capturableIds s ∨ card.id ∈ s.pendingTableIds) :
    ((∃ opt ∈ s.captureOptions,
        opt.length = (toggleId s.pendingTableIds card.id).card ∧
        opt.toFinset = toggleId s.pendingTableIds card.id) →
      ∃ opt, (handleTableCard s card).2 = [OutMsg.play sel.id opt] ∧
        opt ∈ s.captureOptions ∧
        opt.toFinset = toggleId s.pendingTableIds card.id ∧
        opt.length = (toggleId s.pendingTableIds card.id).card ∧
        (handleTableCard s card).1 = clearInteraction s) ∧
    ((∀ opt ∈ s.captureOptions,
        ¬(opt.length = (toggleId s.pendingTableIds card.id).card ∧
          opt.toFinset = toggleId s.pendingTableIds card.id)) →
      (handleTableCard s card).2 = []) := by
  constructor
  · intro hex
    obtain ⟨opt, hfind, hmem, hlen, hset⟩ :=
      findExactMatch_some_of_exists s.captureOptions (toggleId s.pendingTableIds card.id) hex
    refine ⟨opt, ?_, hmem, hset, hlen, ?_⟩ <;>
      simp [handleTableCard, hsel, hturn, hguard, hfind, executePlay, clearInteraction]
  · intro hall
    have hnone := findExactMatch_none_of_forall s.captureOptions
      (toggleId s.pendingTableIds card.id) hall
    simp [handleTableCard, hsel, hturn, hguard, hnone]

/-- Witness for C1: in `exSelState` (options `[["c1","c2"],["c3"]]`,
pending `{"c1"}`), tapping `c2` completes the first option: one play with
ids `["c1","c2"]` goes out and the interaction state is cleared. -/
theorem handleTableCard_exact_match_executes_witness :
    exSelState.selectedCard = some exCardH1 ∧
    isMyTurn exSelState = true ∧
    (exCardC2.id ∈ capturableIds exSelState ∨
      exCardC2.id ∈ exSelState.pendingTableIds) ∧
    (∃ opt, (handleTableCard exSelState exCardC2).2 = [OutMsg.play exCardH1.id opt] ∧
      opt ∈ exSelState.captureOptions ∧
      opt.toFinset = toggleId exSelState.pendingTableIds exCardC2.id ∧
      opt.length = (toggleId exSelState.pendingTableIds exCardC2.id).card ∧
      (handleTableCard exSelState exCardC2).1 = clearInteraction exSelState) :=
  ⟨by decide, by decide, by decide,
    (handleTableCard_exact_match_executes exSelState exCardC2 exCardH1
      (by decide) (by decide) (by decide)).1 (by decide)⟩

/-! ## C2 -/

/-- The same board state with the turn flipped to the opponent. -/
def exTurnStateOff : GameState :=
  { exTurnState with is_human_turn := false }

/-- Claim C2: a `state` message emits exactly the sweep-diff computed
against the previous authoritative state (the one held before the
replacement), replaces the authoritative state wholesale with the payload,
clears the transient error and the round result, and, whenever the new
state's turn flag is false, also clears the whole interaction state
(selection, options, loaded flag, and — through the reactive statement —
the pending ids). -/
theorem state_msg_replaces_and_clears (s : ClientState) (st : GameState) :
    (stepRecv s (.state st)).2 = detectScopas s.myPlayerId s.gameState st ∧
    (stepRecv s (.state st)).1.gameState = some st ∧
    (stepRecv s (.state st)).1.errorMessage = none ∧
    (stepRecv s (.state st)).1.roundResult = none ∧
    (st.is_human_turn = false →
      (stepRecv s (.state st)).1.selectedCard = none ∧
      (stepRecv s (.state st)).1.captureOptions = [] ∧
      (stepRecv s (.state st)).1.capturesLoaded = false ∧
      (stepRecv s (.state st)).1.pendingTableIds = ∅) := by
  refine ⟨?_, ?_, ?_, ?_, fun hturn => ?_⟩ <;>
    simp [stepRecv, dispatch, reconcile] <;> split <;> simp_all

/-- Witness for C2: delivering an opponent-turn state to a client that was
mid-selection clears selection, options, loaded flag and pending ids. -/
theorem state_msg_replaces_and_clears_witness :
    exTurnStateOff.is_human_turn = false ∧
    ((stepRecv exSelState (.state exTurnStateOff)).1.selectedCard = none ∧
      (stepRecv exSelState (.state exTurnStateOff)).1.captureOptions = [] ∧
      (stepRecv exSelState (.state exTurnStateOff)).1.capturesLoaded = false ∧
      (stepRecv exSelState (.state exTurnStateOff)).1.pendingTableIds = ∅) :=
  ⟨by decide,
    (state_msg_replaces_and_clears exSelState exTurnStateOff).2.2.2.2 (by decide)⟩

/-! ## C3 -/

/-- Push the event count through the map/filter of the detection loop. -/
lemma scopaEvents_countP_entries (myId : Option String) (prev : GameState)
    (entries : List (String × PlayerInfo)) (pid : String) :
    (scopaEvents myId prev entries).countP (fun e => e.player_id == pid) =
      entries.countP (fun a => (a.1 == pid) && decide (oldScopas prev a.1 < a.2.scopas)) := by
  rw [scopaEvents, List.countP_map, List.countP_filter]
  rfl

/-- With unique player keys, the count of detected events owned by `pid`
is one when `pid`'s scopa count increased and zero otherwise. -/
lemma countP_entries_lookup (prev : GameState) (entries : List (String × PlayerInfo))
    (pid : String) (qi : PlayerInfo)
    (hnodup : (entries.map Prod.fst).Nodup) (hnew : entries.lookup pid = some qi) :
    entries.countP (fun a => (a.1 == pid) && decide (oldScopas prev a.1 < a.2.scopas)) =
      if oldScopas prev pid < qi.scopas then 1 else 0 := by
  induction entries with
  | nil => simp at hnew
  | cons a t ih =>
    rw [List.countP_cons]
    rw [List.lookup] at hnew
    by_cases hpa : pid = a.1
    · have hbeq : (pid == a.1) = true := beq_iff_eq.mpr hpa
      rw [hbeq] at hnew
      have hqa : a.2 = qi := Option.some_inj.mp hnew
      have hnotin : a.1 ∉ t.map Prod.fst := (List.nodup_cons.mp hnodup).1
      have hzero : t.countP
          (fun b => (b.1 == pid) && decide (oldScopas prev b.1 < b.2.scopas)) = 0 := by
        rw [List.countP_eq_zero]
        intro b hb hpred
        rw [Bool.and_eq_true, beq_iff_eq] at hpred
        exact hnotin (hpa ▸ hpred.1 ▸ List.mem_map_of_mem Prod.fst hb)
      rw [hzero]
      simp [hpa, hqa]
    · have hbeq : (pid == a.1) = false := beq_eq_false_iff_ne.mpr hpa
      rw [hbeq] at hnew
      have hbeq' : (a.1 == pid) = false := beq_eq_false_iff_ne.mpr (Ne.symm hpa)
      rw [ih (List.nodup_cons.mp hnodup).2 hnew]
      simp [hbeq']

/-- The previous state with no sweeps for A and one for B. -/
def exPrevScopas : GameState :=
  { phase := "playing", table := [], players := [("A", ⟨3, 0, 0⟩), ("B", ⟨3, 0, 1⟩)],
    scores := [], deck_remaining := 0, is_human_turn := false, human_hand := [] }

/-- The new state where A's sweep count increased to 1. -/
def exNewScopas : GameState :=
  { exPrevScopas with players := [("A", ⟨3, 0, 1⟩), ("B", ⟨3, 0, 1⟩)] }

/-- Claim C3: on a state diff with a previous state, each player present in
both states whose scopa count strictly increased owns exactly one emitted
event (and a player whose count did not increase owns none); every emitted
event carries `is_mine = (owner == localPlayerId)` and the fixed 2500 ms
expiry; with no previous state no event is emitted; and on the concrete
counts `{A:0,B:1} → {A:1,B:1}` the emitted events are exactly one event
owned by A. -/
theorem scopa_diff_one_event_per_increase (myId : Option String) (prev st : GameState)
    (pid : String) (pi qi : PlayerInfo)
    (hnodup : (st.players.map Prod.fst).Nodup)
    (hprev : prev.players.lookup pid = some pi)
    (hnew : st.players.lookup pid = some qi) :
    ((detectScopas myId (some prev) st).countP (fun e => e.player_id == pid) =
      if pi.scopas < qi.scopas then 1 else 0) ∧
    (∀ e ∈ detectScopas myId (some prev) st,
      e.is_mine = (some e.player_id == myId) ∧ e.expiry = scopaToastMs) ∧
    detectScopas myId none st = [] ∧
    detectScopas (some "A") (some exPrevScopas) exNewScopas =
      [{ player_id := "A", is_mine := true, expiry := 2500 }] := by
  refine ⟨?_, ?_, rfl, by decide⟩
  · have hold : oldScopas prev pid = pi.scopas := by simp [oldScopas, hprev]
    rw [detectScopas, scopaEvents_countP_entries, countP_entries_lookup prev st.players
      pid qi hnodup hnew, hold]
  · intro e he
    rw [detectScopas, scopaEvents] at he
    obtain ⟨a, _, rfl⟩ := List.mem_map.mp he
    exact ⟨rfl, rfl⟩

/-- Witness for C3 at the concrete `{A:0,B:1} → {A:1,B:1}` diff: player A
owns exactly one event. -/
theorem scopa_diff_one_event_per_increase_witness :
    (exNewScopas.players.map Prod.fst).Nodup ∧
    exPrevScopas.players.lookup "A" = some ⟨3, 0, 0⟩ ∧
    exNewScopas.players.lookup "A" = some ⟨3, 0, 1⟩ ∧
    (detectScopas (some "A") (some exPrevScopas) exNewScopas).countP
      (fun e => e.player_id == "A") = 1 :=
  ⟨by decide, by decide, by decide, by
    have h := (scopa_diff_one_event_per_increase (some "A") exPrevScopas exNewScopas
      "A" ⟨3, 0, 0⟩ ⟨3, 0, 1⟩ (by decide) (by decide) (by decide)).1
    simpa using h⟩

/-! ## C4 -/

/-- Claim C4: a second tap on the already-selected hand item, on the local
turn, discards when no capture options are present — the play
`{card_id, capture_ids: []}` goes out and the interaction state is cleared —
and merely cancels the selection (no outbound play) when options exist. -/
theorem second_tap_discards_or_cancels (s : ClientState) (card sel : Card)
    (hsel : s.selectedCard = some sel) (hid : sel.id = card.id)
    (hturn : isMyTurn s = true) :
    (s.captureOptions = [] →
      handleHandCard s card = (clearInteraction s, [OutMsg.play card.id []])) ∧
    (s.captureOptions ≠ [] →
      handleHandCard s card = (clearInteraction s, [])) := by
  constructor <;> intro h <;>
    simp [handleHandCard, hsel, hid, hturn, executePlay, cancelSelection,
          clearInteraction, h]

/-- The selected client before any `captures` response: no options known. -/
def exNoOptState : ClientState :=
  { exSelState with captureOptions := [], capturesLoaded := false,
                    pendingTableIds := ∅ }

/-- Witness for C4: both branches at concrete states — a discard play with
empty capture ids when no options exist, a silent cancel when they do. -/
theorem second_tap_discards_or_cancels_witness :
    exNoOptState.selectedCard = some exCardH1 ∧
    isMyTurn exNoOptState = true ∧
    exNoOptState.captureOptions = [] ∧
    handleHandCard exNoOptState exCardH1 =
      (clearInteraction exNoOptState, [OutMsg.play exCardH1.id []]) ∧
    handleHandCard exSelState exCardH1 = (clearInteraction exSelState, []) :=
  ⟨by decide, by decide, by decide,
    (second_tap_discards_or_cancels exNoOptState exCardH1 exCardH1
      (by decide) rfl (by decide)).1 (by decide),
    (second_tap_discards_or_cancels exSelState exCardH1 exCardH1
      (by decide) rfl (by decide)).2 (by decide)⟩

/-! ## C5 -/

/-- A card whose id sits in the second capture option of the reachable
counterexample state below. -/
def exCardC3 : Card := { id := "c3", suit := "bastoni", value := 2 }

/-- A reachable session prefix: connect, open, round start, a your-turn
state, select hand card `h1`, receive options `[["c1","c2"],["c2"]]`, and
toggle table card `c1`. -/
def exTraceC5 : List ClientAction :=
  [ .connect "s" "A", .sockOpen 0,
    .recv (.game_started (some "B") (some 1)),
    .recv (.state exTurnState),
    .tapHand exCardH1,
    .recv (.captures [["c1", "c2"], ["c2"]]),
    .tapTable exCardC1 ]

/-- The state reached by `exTraceC5`: pending `{"c1"}`, selection active. -/
def exC5State : ClientState := run initState exTraceC5

/-- Counterexample to C5 as stated: in the reachable state `exC5State`
(pending `{"c1"}`), toggling table card `c2` twice does not restore the
pending set — the first toggle completes option `["c1","c2"]`, which
executes a play and clears everything, and the second toggle is a no-op
because the selection is gone.  The pending set ends at `∅ ≠ {"c1"}`. -/
theorem double_toggle_not_identity_cex :
    exC5State.pendingTableIds = {"c1"} ∧
    exC5State.selectedCard = some exCardH1 ∧
    isMyTurn exC5State = true ∧
    (step (step exC5State (.tapTable exCardC2)) (.tapTable exCardC2)).pendingTableIds = ∅ ∧
    (step (step exC5State (.tapTable exCardC2)) (.tapTable exCardC2)).pendingTableIds ≠
      exC5State.pendingTableIds :=
  ⟨by decide, by decide, by decide, by decide, by decide⟩

/-- Characterization of an effective `handleTableCard` call (all guards
pass): the pending set is toggled and the play fires exactly on an exact
match. -/
lemma handleTableCard_eq (s : ClientState) (card sel : Card)
    (hsel : s.selectedCard = some sel) (hturn : isMyTurn s = true)
    (hguard : card.id ∈ capturableIds s ∨ card.id ∈ s.pendingTableIds) :
    handleTableCard s card =
      match findExactMatch s.captureOptions (toggleId s.pendingTableIds card.id) with
      | some opt => (clearInteraction s, [OutMsg.play sel.id opt])
      | none => ({ s with pendingTableIds := toggleId s.pendingTableIds card.id }, []) := by
  simp only [handleTableCard, hsel, hturn, Bool.not_true, Bool.false_eq_true, if_false,
    if_neg (not_not_intro hguard)]
  cases findExactMatch s.captureOptions (toggleId s.pendingTableIds card.id) <;> rfl

/-- C5 as amended: double-toggle of the same table item is the identity on
`pendingTableIds`, provided the item is capturable, a hand item is selected,
it is the local turn, and neither intermediate pending set matches a
capture option exactly (so no play fires in between). -/
theorem double_toggle_identity_of_no_match (s : ClientState) (card sel : Card)
    (hsel : s.selectedCard = some sel) (hturn : isMyTurn s = true)
    (hcap : card.id ∈ capturableIds s)
    (hm1 : findExactMatch s.captureOptions (toggleId s.pendingTableIds card.id) = none)
    (hm2 : findExactMatch s.captureOptions s.pendingTableIds = none) :
    (handleTableCard (handleTableCard s card).1 card).1.pendingTableIds =
      s.pendingTableIds := by
  have htog : toggleId (toggleId s.pendingTableIds card.id) card.id = s.pendingTableIds := by
    rw [toggleId, toggleId]
    by_cases h : card.id ∈ s.pendingTableIds
    · simp [h, Finset.insert_erase h]
    · simp [h, Finset.erase_insert h]
  rw [handleTableCard_eq s card sel hsel hturn (Or.inl hcap), hm1]
  dsimp only
  rw [handleTableCard_eq { s with pendingTableIds := toggleId s.pendingTableIds card.id }
    card sel hsel hturn (Or.inl hcap)]
  dsimp only
  rw [htog, hm2]

/-- Witness for the amended C5: in `exSelState`, toggling `c3` (which
completes nothing) twice restores pending `{"c1"}`. -/
theorem double_toggle_identity_of_no_match_witness :
    exSelState.selectedCard = some exCardH1 ∧
    isMyTurn exSelState = true ∧
    exCardC3.id ∈ capturableIds exSelState ∧
    findExactMatch exSelState.captureOptions
      (toggleId exSelState.pendingTableIds exCardC3.id) = none ∧
    findExactMatch exSelState.captureOptions exSelState.pendingTableIds = none ∧
    (handleTableCard (handleTableCard exSelState exCardC3).1 exCardC3).1.pendingTableIds =
      exSelState.pendingTableIds :=
  ⟨by decide, by decide, by decide, by decide, by decide,
    double_toggle_identity_of_no_match exSelState exCardC3 exCardH1
      (by decide) (by decide) (by decide) (by decide) (by decide)⟩

/-! ## C6 -/

/-- The claimed invariant: every pending id appears in some capture
option. -/
def pendingSubsetInv (s : ClientState) : Prop :=
  ∀ id ∈ s.pendingTableIds, id ∈ capturableIds s

instance (s : ClientState) : Decidable (pendingSubsetInv s) :=
  inferInstanceAs (Decidable (∀ id ∈ s.pendingTableIds, id ∈ capturableIds s))

/-- A reachable session prefix whose final state has pending `{"c1"}` drawn
from options `[["c1","c2"]]`. -/
def exTraceC6 : List ClientAction :=
  [ .connect "s" "A", .sockOpen 0,
    .recv (.game_started (some "B") (some 1)),
    .recv (.state exTurnState),
    .tapHand exCardH1,
    .recv (.captures [["c1", "c2"]]),
    .tapTable exCardC1 ]

/-- The state reached by `exTraceC6`. -/
def exC6State : ClientState := run initState exTraceC6

/-- Counterexample to C6 as stated: the `captures` handler replaces
`captureOptions` without touching `pendingTableIds`, so a further
`captures` message breaks `pendingIds ⊆ ⋃ captureOptions` in a reachable
state. -/
theorem captures_msg_breaks_pending_subset_cex :
    pendingSubsetInv exC6State ∧
    exC6State.pendingTableIds = {"c1"} ∧
    ¬ pendingSubsetInv (step exC6State (.recv (.captures [["c9"]]))) :=
  ⟨by decide, by decide, by decide⟩

/-- The invariant only depends on the pending set and the options. -/
lemma pendingSubsetInv_congr {s s' : ClientState}
    (hp : s'.pendingTableIds = s.pendingTableIds)
    (hc : s'.captureOptions = s.captureOptions) (h : pendingSubsetInv s) :
    pendingSubsetInv s' := by
  intro id hid
  rw [hp] at hid
  have := h id hid
  rw [capturableIds] at this ⊢
  rw [hc]
  exact this

/-- An empty pending set satisfies the invariant. -/
lemma pendingSubsetInv_of_empty {s : ClientState} (hp : s.pendingTableIds = ∅) :
    pendingSubsetInv s := by
  intro id hid
  rw [hp] at hid
  simp at hid

/-- The reactive reconciliation preserves the invariant. -/
lemma reconcile_pendingSubsetInv {s : ClientState} (h : pendingSubsetInv s) :
    pendingSubsetInv (reconcile s) := by
  rw [reconcile]
  split
  · exact pendingSubsetInv_of_empty rfl
  · exact h

/-- A toggle only ever adds the toggled id. -/
lemma mem_toggleId {p : Finset String} {x id : String} (h : id ∈ toggleId p x) :
    id ∈ p ∨ id = x := by
  rw [toggleId] at h
  split at h
  · exact Or.inl (Finset.mem_of_mem_erase h)
  · rcases Finset.mem_insert.mp h with h' | h'
    · exact Or.inr h'
    · exact Or.inl h'

/-- C6 as amended: `pendingIds ⊆ ⋃ captureOptions` is preserved by every
client operation — selection, toggling, cancel, play execution, connection
events, and every inbound message — except the `captures` handler, which
replaces the options without clearing the pending set and can violate it
(see the counterexample). -/
theorem pending_subset_invariant_preserved (s : ClientState) (a : ClientAction)
    (hinv : pendingSubsetInv s)
    (hnc : ∀ opts, a ≠ ClientAction.recv (InMsg.captures opts)) :
    pendingSubsetInv (step s a) := by
  cases a with
  | connect sid pid =>
      refine pendingSubsetInv_congr ?_ ?_ hinv <;> cases hws : s.ws <;>
        simp [step, connect, hws]
  | disconnect =>
      refine pendingSubsetInv_congr ?_ ?_ hinv <;> cases hws : s.ws <;>
        simp [step, disconnect, hws]
  | sockOpen i =>
      refine pendingSubsetInv_congr ?_ ?_ hinv <;>
        (simp only [step, onOpen]; split <;> rfl)
  | sockClose i =>
      refine pendingSubsetInv_congr ?_ ?_ hinv <;>
        (simp only [step, onCloseEvent]; split <;> rfl)
  | sockError => exact pendingSubsetInv_congr rfl rfl hinv
  | sendRaw m => exact hinv
  | setJoinCode c => exact pendingSubsetInv_congr rfl rfl hinv
  | cancelTap => exact reconcile_pendingSubsetInv (pendingSubsetInv_of_empty rfl)
  | tapHand c =>
      apply reconcile_pendingSubsetInv
      simp only [handleHandCard]
      split
      · exact hinv
      · split
        · split
          · exact pendingSubsetInv_of_empty rfl
          · exact pendingSubsetInv_of_empty rfl
        · exact pendingSubsetInv_of_empty rfl
  | tapTable c =>
      apply reconcile_pendingSubsetInv
      rcases hsel : s.selectedCard with _ | sel
      · simp only [handleTableCard, hsel]
        exact hinv
      · simp only [handleTableCard, hsel]
        split
        · exact hinv
        · split
          · exact hinv
          · rename_i hguard
            split
            · exact pendingSubsetInv_of_empty rfl
            · intro id hid
              rcases mem_toggleId hid with h' | h'
              · exact hinv id h'
              · subst h'
                rcases not_not.mp hguard with hc | hp
                · exact hc
                · exact hinv c.id hp
  | recv m =>
      cases m with
      | captures opts => exact absurd rfl (hnc opts)
      | waiting => exact reconcile_pendingSubsetInv (pendingSubsetInv_congr rfl rfl hinv)
      | game_started oid rnd =>
          exact pendingSubsetInv_of_empty (by simp [step, stepRecv, dispatch, reconcile])
      | cards_dealt rnd =>
          exact pendingSubsetInv_of_empty (by simp [step, stepRecv, dispatch, reconcile])
      | round_over p =>
          exact pendingSubsetInv_of_empty (by simp [step, stepRecv, dispatch, reconcile])
      | error msg => exact reconcile_pendingSubsetInv (pendingSubsetInv_congr rfl rfl hinv)
      | opponent_disconnected =>
          exact reconcile_pendingSubsetInv (pendingSubsetInv_congr rfl rfl hinv)
      | pong => exact reconcile_pendingSubsetInv (pendingSubsetInv_congr rfl rfl hinv)
      | unknown t => exact reconcile_pendingSubsetInv (pendingSubsetInv_congr rfl rfl hinv)
      | state st =>
          by_cases ht : st.is_human_turn
          · by_cases hsc : s.selectedCard = none
            · exact pendingSubsetInv_of_empty
                (by simp [step, stepRecv, dispatch, reconcile, ht, hsc])
            · refine pendingSubsetInv_congr ?_ ?_ hinv <;>
                simp [step, stepRecv, dispatch, reconcile, ht, hsc]
          · exact pendingSubsetInv_of_empty
              (by simp [step, stepRecv, dispatch, reconcile, ht])

/-- Witness for the amended C6: the invariant holds in the reachable
`exC6State` and survives a cancel. -/
theorem pending_subset_invariant_preserved_witness :
    pendingSubsetInv exC6State ∧ pendingSubsetInv (step exC6State .cancelTap) :=
  ⟨by decide,
    pending_subset_invariant_preserved exC6State .cancelTap (by decide)
      (fun _ h => ClientAction.noConfusion h)⟩

/-! ## C7 -/

/-- The sockets that are not closed. -/
def liveSockets (s : ClientState) : List (Nat × ReadyState) :=
  s.sockets.filter fun p => p.2 != ReadyState.closed

/-- Connection-manager invariant: socket ids are below the fresh-id
counter, ids are unique, and every non-closed socket is the current one. -/
def connInv (s : ClientState) : Prop :=
  (∀ p ∈ s.sockets, p.1 < s.nextId) ∧
  (s.sockets.map Prod.fst).Nodup ∧
  (∀ p ∈ s.sockets, p.2 ≠ ReadyState.closed → s.ws = some p.1)

instance (s : ClientState) : Decidable (connInv s) :=
  inferInstanceAs (Decidable (_ ∧ _ ∧ _))

/-- Marking a socket does not change the id column. -/
lemma setSockState_map_fst (l : List (Nat × ReadyState)) (i : Nat) (rs : ReadyState) :
    (setSockState l i rs).map Prod.fst = l.map Prod.fst := by
  induction l with
  | nil => rfl
  | cons q t ih =>
      simp only [setSockState, List.map_cons] at ih ⊢
      rw [ih]
      by_cases h : q.1 = i <;> simp [h]

/-- Membership in a marked socket table. -/
lemma mem_setSockState {l : List (Nat × ReadyState)} {i : Nat} {rs : ReadyState}
    {p : Nat × ReadyState} (hp : p ∈ setSockState l i rs) :
    (p.2 = rs ∧ p.1 = i ∧ p.1 ∈ l.map Prod.fst) ∨ (p ∈ l ∧ p.1 ≠ i) := by
  rw [setSockState, List.mem_map] at hp
  obtain ⟨q, hq, heq⟩ := hp
  by_cases h : q.1 = i
  · rw [if_pos h] at heq
    subst heq
    exact Or.inl ⟨rfl, h, (List.mem_map_of_mem Prod.fst hq : q.1 ∈ l.map Prod.fst)⟩
  · rw [if_neg h] at heq
    subst heq
    exact Or.inr ⟨hq, h⟩

/-- A successful lookup produces a member pair. -/
lemma mem_of_lookup_eq_some {l : List (Nat × ReadyState)} {i : Nat} {rs : ReadyState}
    (h : l.lookup i = some rs) : (i, rs) ∈ l := by
  induction l with
  | nil => simp [List.lookup] at h
  | cons q t ih =>
      obtain ⟨k, v⟩ := q
      rw [List.lookup] at h
      cases hik : i == k with
      | true =>
          rw [hik] at h
          obtain rfl := Option.some_inj.mp h
          obtain rfl := beq_iff_eq.mp hik
          exact List.mem_cons_self _ _
      | false =>
          rw [hik] at h
          exact List.mem_cons_of_mem _ (ih h)

/-- Keys of a bounded socket table are bounded. -/
lemma key_lt_of_mem_map {l : List (Nat × ReadyState)} {n k : Nat}
    (hb : ∀ p ∈ l, p.1 < n) (hk : k ∈ l.map Prod.fst) : k < n := by
  obtain ⟨q, hq, rfl⟩ := List.mem_map.mp hk
  exact hb q hq

/-- When unique-keyed live sockets all coincide with one id, at most one
socket is live. -/
lemma filter_live_le_one (w : Option Nat) (l : List (Nat × ReadyState))
    (hnodup : (l.map Prod.fst).Nodup)
    (hws : ∀ p ∈ l, p.2 ≠ ReadyState.closed → w = some p.1) :
    (l.filter fun p => p.2 != ReadyState.closed).length ≤ 1 := by
  induction l with
  | nil => simp
  | cons q t ih =>
      rw [List.filter_cons]
      by_cases hq : q.2 = ReadyState.closed
      · have hf : (q.2 != ReadyState.closed) = false := by simp [hq]
        rw [hf]
        simp only [Bool.false_eq_true, if_false]
        exact ih (List.nodup_cons.mp (by simpa using hnodup)).2
          (fun p hp hpc => hws p (List.mem_cons_of_mem _ hp) hpc)
      · have hqb : (q.2 != ReadyState.closed) = true := by simp [hq]
        rw [hqb]
        simp only [if_true]
        have hwq : w = some q.1 := hws q (List.mem_cons_self _ _) hq
        have htail : (t.filter fun p => p.2 != ReadyState.closed) = [] := by
          by_contra hne
          obtain ⟨r, hr⟩ := List.exists_mem_of_ne_nil _ hne
          obtain ⟨hrt, hrb⟩ := List.mem_filter.mp hr
          have hwr : w = some r.1 :=
            hws r (List.mem_cons_of_mem _ hrt) (by simpa using hrb)
          have hkey : r.1 = q.1 := by
            have h2 := hwq ▸ hwr
            exact (Option.some_inj.mp h2.symm)
          have hqnot : q.1 ∉ t.map Prod.fst :=
            (List.nodup_cons.mp (by simpa using hnodup)).1
          exact hqnot (hkey ▸ List.mem_map_of_mem Prod.fst hrt)
        rw [htail]
        simp

/-- `connect` when no socket exists. -/
lemma connect_eq_none (s : ClientState) (sid pid : String) (h : s.ws = none) :
    connect s sid pid =
      { s with myPlayerId := some pid, wsStatus := .connecting,
               ws := some s.nextId,
               sockets := s.sockets ++ [(s.nextId, .connecting)],
               nextId := s.nextId + 1 } := by
  simp [connect, h]

/-- `connect` when a socket exists: it is closed first. -/
lemma connect_eq_some (s : ClientState) (sid pid : String) (i : Nat) (h : s.ws = some i) :
    connect s sid pid =
      { s with myPlayerId := some pid, wsStatus := .connecting,
               ws := some s.nextId,
               sockets := setSockState s.sockets i .closed ++ [(s.nextId, .connecting)],
               nextId := s.nextId + 1 } := by
  simp [connect, h]

/-- After `connect` the current socket is the fresh one. -/
lemma connect_ws (s : ClientState) (sid pid : String) :
    (connect s sid pid).ws = some s.nextId := by
  cases hws : s.ws
  · rw [connect_eq_none s sid pid hws]
  · rw [connect_eq_some s sid pid _ hws]

/-- `connect` bumps the fresh-id counter. -/
lemma connect_nextId (s : ClientState) (sid pid : String) :
    (connect s sid pid).nextId = s.nextId + 1 := by
  cases hws : s.ws
  · rw [connect_eq_none s sid pid hws]
  · rw [connect_eq_some s sid pid _ hws]

/-- `connect` always sets status `connecting`. -/
lemma connect_status (s : ClientState) (sid pid : String) :
    (connect s sid pid).wsStatus = WsStatus.connecting := by
  cases hws : s.ws
  · rw [connect_eq_none s sid pid hws]
  · rw [connect_eq_some s sid pid _ hws]

/-- The fresh socket opened by `connect` is in the table, connecting. -/
lemma connect_new_socket (s : ClientState) (sid pid : String) :
    (s.nextId, ReadyState.connecting) ∈ (connect s sid pid).sockets := by
  cases hws : s.ws
  · rw [connect_eq_none s sid pid hws]
    exact List.mem_append_right _ (List.mem_singleton_self _)
  · rw [connect_eq_some s sid pid _ hws]
    exact List.mem_append_right _ (List.mem_singleton_self _)

/-- After `connect`, any socket still live is the fresh one: the previous
connection is closed before the new one can be considered open. -/
lemma connect_live_is_new (s : ClientState) (sid pid : String) (h : connInv s) :
    ∀ p ∈ (connect s sid pid).sockets, p.2 ≠ ReadyState.closed → p.1 = s.nextId := by
  obtain ⟨hb, hn, hw⟩ := h
  intro p hp hpc
  cases hws : s.ws with
  | none =>
      rw [connect_eq_none s sid pid hws] at hp
      rcases List.mem_append.mp hp with h1 | h1
      · cases hws ▸ hw p h1 hpc
      · simp only [List.mem_singleton] at h1
        subst h1
        rfl
  | some i =>
      rw [connect_eq_some s sid pid i hws] at hp
      rcases List.mem_append.mp hp with h1 | h1
      · rcases mem_setSockState h1 with ⟨hc, _, _⟩ | ⟨hmem, hne⟩
        · exact absurd hc hpc
        · have h2 := hws ▸ hw p hmem hpc
          exact absurd (Option.some_inj.mp h2).symm hne
      · simp only [List.mem_singleton] at h1
        subst h1
        rfl

/-- The invariant only depends on the socket fields. -/
lemma connInv_congr3 {s s' : ClientState} (h1 : s'.sockets = s.sockets)
    (h2 : s'.nextId = s.nextId) (h3 : s'.ws = s.ws) (h : connInv s) : connInv s' := by
  obtain ⟨hb, hn, hw⟩ := h
  refine ⟨?_, ?_, ?_⟩
  · intro p hp
    rw [h1] at hp
    rw [h2]
    exact hb p hp
  · rw [h1]
    exact hn
  · intro p hp hpc
    rw [h1] at hp
    rw [h3]
    exact hw p hp hpc

/-- `connect` appends the fresh id to the id column. -/
lemma connect_sockets_map_fst (s : ClientState) (sid pid : String) :
    (connect s sid pid).sockets.map Prod.fst = s.sockets.map Prod.fst ++ [s.nextId] := by
  cases hws : s.ws
  · rw [connect_eq_none s sid pid hws]
    simp
  · rw [connect_eq_some s sid pid _ hws]
    simp [setSockState_map_fst]

/-- `connect` preserves the connection invariant. -/
lemma connect_connInv (s : ClientState) (sid pid : String) (h : connInv s) :
    connInv (connect s sid pid) := by
  have hlive := connect_live_is_new s sid pid h
  obtain ⟨hb, hn, hw⟩ := h
  refine ⟨?_, ?_, ?_⟩
  · intro p hp
    rw [connect_nextId]
    cases hws : s.ws with
    | none =>
        rw [connect_eq_none s sid pid hws] at hp
        rcases List.mem_append.mp hp with h1 | h1
        · exact Nat.lt_succ_of_lt (hb p h1)
        · simp only [List.mem_singleton] at h1
          subst h1
          exact Nat.lt_succ_self _
    | some i =>
        rw [connect_eq_some s sid pid i hws] at hp
        rcases List.mem_append.mp hp with h1 | h1
        · rcases mem_setSockState h1 with ⟨_, hpi, hkey⟩ | ⟨hmem, _⟩
          · exact Nat.lt_succ_of_lt (key_lt_of_mem_map hb hkey)
          · exact Nat.lt_succ_of_lt (hb p hmem)
        · simp only [List.mem_singleton] at h1
          subst h1
          exact Nat.lt_succ_self _
  · rw [connect_sockets_map_fst]
    refine List.Nodup.append hn (List.nodup_singleton _) ?_
    intro k hk1 hk2
    rw [List.mem_singleton] at hk2
    subst hk2
    exact absurd (key_lt_of_mem_map hb hk1) (Nat.lt_irrefl _)
  · intro p hp hpc
    rw [connect_ws, hlive p hp hpc]

/-- `disconnect` preserves the connection invariant. -/
lemma disconnect_connInv (s : ClientState) (h : connInv s) : connInv (disconnect s) := by
  obtain ⟨hb, hn, hw⟩ := h
  cases hws : s.ws with
  | none =>
      have hd : disconnect s = s := by simp [disconnect, hws]
      rw [hd]
      exact ⟨hb, hn, hw⟩
  | some i =>
      have hd : disconnect s =
          { s with sockets := setSockState s.sockets i .closed, ws := none } := by
        simp [disconnect, hws]
      rw [hd]
      refine ⟨?_, ?_, ?_⟩
      · intro p hp
        rcases mem_setSockState hp with ⟨_, _, hkey⟩ | ⟨hmem, _⟩
        · exact key_lt_of_mem_map hb hkey
        · exact hb p hmem
      · rw [setSockState_map_fst]
        exact hn
      · intro p hp hpc
        rcases mem_setSockState hp with ⟨hc, _, _⟩ | ⟨hmem, hne⟩
        · exact absurd hc hpc
        · have h2 := hws ▸ hw p hmem hpc
          exact absurd (Option.some_inj.mp h2).symm hne

/-- `onopen` preserves the connection invariant. -/
lemma onOpen_connInv (s : ClientState) (i : Nat) (h : connInv s) : connInv (onOpen s i) := by
  obtain ⟨hb, hn, hw⟩ := h
  rw [onOpen]
  split
  · rename_i hlk
    refine ⟨?_, ?_, ?_⟩
    · intro p hp
      rcases mem_setSockState hp with ⟨_, _, hkey⟩ | ⟨hmem, _⟩
      · exact key_lt_of_mem_map hb hkey
      · exact hb p hmem
    · rw [setSockState_map_fst]
      exact hn
    · intro p hp hpc
      rcases mem_setSockState hp with ⟨_, hpi, _⟩ | ⟨hmem, _⟩
      · rw [hpi]
        exact hw (i, ReadyState.connecting) (mem_of_lookup_eq_some hlk) (by simp)
      · exact hw p hmem hpc
  · exact ⟨hb, hn, hw⟩

/-- `onclose` preserves the connection invariant. -/
lemma onCloseEvent_connInv (s : ClientState) (i : Nat) (h : connInv s) :
    connInv (onCloseEvent s i) := by
  obtain ⟨hb, hn, hw⟩ := h
  rw [onCloseEvent]
  split
  · refine ⟨?_, ?_, ?_⟩
    · intro p hp
      rcases mem_setSockState hp with ⟨_, _, hkey⟩ | ⟨hmem, _⟩
      · exact key_lt_of_mem_map hb hkey
      · exact hb p hmem
    · rw [setSockState_map_fst]
      exact hn
    · intro p hp hpc
      rcases mem_setSockState hp with ⟨hc, _, _⟩ | ⟨hmem, _⟩
      · exact absurd hc hpc
      · exact hw p hmem hpc
  · exact ⟨hb, hn, hw⟩

/-- Reconciliation never touches the socket fields. -/
lemma reconcile_sock_fields (s : ClientState) :
    (reconcile s).sockets = s.sockets ∧ (reconcile s).nextId = s.nextId ∧
      (reconcile s).ws = s.ws := by
  rw [reconcile]
  split <;> exact ⟨rfl, rfl, rfl⟩

/-- The dispatcher never touches the socket fields. -/
lemma dispatch_sock_fields (s : ClientState) (m : InMsg) :
    (dispatch s m).1.sockets = s.sockets ∧ (dispatch s m).1.nextId = s.nextId ∧
      (dispatch s m).1.ws = s.ws := by
  cases m <;> exact ⟨rfl, rfl, rfl⟩

/-- Hand taps never touch the socket fields. -/
lemma handleHandCard_sock_fields (s : ClientState) (c : Card) :
    (handleHandCard s c).1.sockets = s.sockets ∧
      (handleHandCard s c).1.nextId = s.nextId ∧ (handleHandCard s c).1.ws = s.ws := by
  simp only [handleHandCard]
  split
  · simp
  · split
    · split <;> simp [executePlay, cancelSelection, clearInteraction]
    · simp

/-- Table taps never touch the socket fields. -/
lemma handleTableCard_sock_fields (s : ClientState) (c : Card) :
    (handleTableCard s c).1.sockets = s.sockets ∧
      (handleTableCard s c).1.nextId = s.nextId ∧ (handleTableCard s c).1.ws = s.ws := by
  rcases hsel : s.selectedCard with _ | sel
  · simp only [handleTableCard, hsel]
    simp
  · simp only [handleTableCard, hsel]
    split
    · simp
    · split
      · simp
      · split <;> simp [executePlay, clearInteraction]

/-- Every client step preserves the connection invariant. -/
lemma step_connInv (s : ClientState) (a : ClientAction) (h : connInv s) :
    connInv (step s a) := by
  cases a with
  | connect sid pid => exact connect_connInv s sid pid h
  | disconnect => exact disconnect_connInv s h
  | sockOpen i => exact onOpen_connInv s i h
  | sockClose i => exact onCloseEvent_connInv s i h
  | sockError => exact connInv_congr3 rfl rfl rfl h
  | sendRaw m => exact h
  | setJoinCode c => exact connInv_congr3 rfl rfl rfl h
  | cancelTap =>
      have hr := reconcile_sock_fields (cancelSelection s)
      exact connInv_congr3 hr.1 hr.2.1 hr.2.2 h
  | tapHand c =>
      have hh := handleHandCard_sock_fields s c
      have hr := reconcile_sock_fields (handleHandCard s c).1
      exact connInv_congr3 (hr.1.trans hh.1) (hr.2.1.trans hh.2.1) (hr.2.2.trans hh.2.2) h
  | tapTable c =>
      have hh := handleTableCard_sock_fields s c
      have hr := reconcile_sock_fields (handleTableCard s c).1
      exact connInv_congr3 (hr.1.trans hh.1) (hr.2.1.trans hh.2.1) (hr.2.2.trans hh.2.2) h
  | recv m =>
      have hd := dispatch_sock_fields s m
      have hr := reconcile_sock_fields (dispatch s m).1
      exact connInv_congr3 (hr.1.trans hd.1) (hr.2.1.trans hd.2.1) (hr.2.2.trans hd.2.2) h

/-- The connection invariant holds along every run from the initial state. -/
lemma run_connInv (acts : List ClientAction) : connInv (run initState acts) := by
  suffices h : ∀ s, connInv s → connInv (run s acts) from h initState (by decide)
  induction acts with
  | nil => exact fun s hs => hs
  | cons a t ih => exact fun s hs => ih (step s a) (step_connInv s a hs)

/-- Claim C7: over every sequence of client operations and transport
events, at most one live (non-closed) socket ever exists; `connect` sets
status `connecting` on the open attempt and makes the fresh socket current;
and (given the connection invariant) after `connect` every still-live
socket is the fresh one, i.e. the prior connection is closed before the new
one can open. -/
theorem connect_single_live_connection :
    (∀ acts : List ClientAction, (liveSockets (run initState acts)).length ≤ 1) ∧
    (∀ s : ClientState, ∀ sid pid : String,
      (connect s sid pid).wsStatus = WsStatus.connecting ∧
      (connect s sid pid).ws = some s.nextId ∧
      (s.nextId, ReadyState.connecting) ∈ (connect s sid pid).sockets) ∧
    (∀ s : ClientState, ∀ sid pid : String, connInv s →
      ∀ p ∈ (connect s sid pid).sockets, p.2 ≠ ReadyState.closed → p.1 = s.nextId) := by
  refine ⟨?_, ?_, ?_⟩
  · intro acts
    have h := run_connInv acts
    exact filter_live_le_one (run initState acts).ws _ h.2.1 h.2.2
  · exact fun s sid pid =>
      ⟨connect_status s sid pid, connect_ws s sid pid, connect_new_socket s sid pid⟩
  · exact fun s sid pid h => connect_live_is_new s sid pid h

/-- A connected client with one open socket. -/
def exConnState : ClientState := run initState [.connect "s" "A", .sockOpen 0]

/-- Witness for C7: re-entrant `connect` on a connected client leaves at
most one live socket, and every live socket carries the fresh id. -/
theorem connect_single_live_connection_witness :
    connInv exConnState ∧
    (liveSockets (run initState
      [.connect "s" "A", .sockOpen 0, .connect "s" "A"])).length ≤ 1 ∧
    ∀ p ∈ (connect exConnState "s" "A").sockets,
      p.2 ≠ ReadyState.closed → p.1 = exConnState.nextId :=
  ⟨by decide, connect_single_live_connection.1 _,
    connect_single_live_connection.2.2 exConnState "s" "A" (by decide)⟩

/-! ## C8 -/

/-- A client whose socket is open but whose status is `waiting`: the
`waiting` message changes the status without touching the transport. -/
def exWaitState : ClientState :=
  run initState [.connect "s" "A", .sockOpen 0, .recv .waiting]

/-- Counterexample to C8 as stated: in the reachable state `exWaitState`
the status is `waiting`, yet `_send` transmits, because it checks the
socket's readyState, not the status store. -/
theorem send_transmits_while_waiting_cex :
    exWaitState.wsStatus = WsStatus.waiting ∧
    wsSend exWaitState (.play "h1" []) = SendEffect.transmitted (.play "h1" []) :=
  ⟨by decide, by decide⟩

/-- C8 as amended: `send` serializes and transmits iff the underlying
socket exists and its readyState is OPEN; otherwise it is a no-op that
emits a diagnostic log; a bare send never changes client state.  (Status
`connected` implies an open socket in normal runs, but `waiting` and
post-`opponent_disconnected` states keep the socket open, and a send then
still transmits.) -/
theorem send_iff_socket_open (s : ClientState) (m : OutMsg) :
    (socketOpen s = true → wsSend s m = SendEffect.transmitted m) ∧
    (socketOpen s = false → wsSend s m = SendEffect.skippedLog m) ∧
    step s (.sendRaw m) = s := by
  refine ⟨?_, ?_, rfl⟩ <;> intro h
  · cases hws : s.ws with
    | none =>
        rw [socketOpen, hws] at h
        simp at h
    | some i =>
        rw [socketOpen, hws] at h
        dsimp only at h
        rw [wsSend, hws]
        dsimp only
        rw [if_pos (of_decide_eq_true h)]
  · cases hws : s.ws with
    | none =>
        rw [wsSend, hws]
    | some i =>
        rw [socketOpen, hws] at h
        dsimp only at h
        rw [wsSend, hws]
        dsimp only
        rw [if_neg (of_decide_eq_false h)]

/-- Witness for the amended C8: a send transmits on the open socket of
`exWaitState` and is skipped with a log on the fresh client. -/
theorem send_iff_socket_open_witness :
    socketOpen exWaitState = true ∧
    wsSend exWaitState (.get_captures "h1") = SendEffect.transmitted (.get_captures "h1") ∧
    socketOpen initState = false ∧
    wsSend initState (.get_captures "h1") = SendEffect.skippedLog (.get_captures "h1") :=
  ⟨by decide, (send_iff_socket_open exWaitState _).1 (by decide), by decide,
    (send_iff_socket_open initState _).2.1 (by decide)⟩

/-! ## C9 -/

/-- A session creator waiting for an opponent, join code on display. -/
def exJoinState : ClientState :=
  run initState [.setJoinCode (some "ABC"), .connect "s" "A", .sockOpen 0, .recv .waiting]

/-- Counterexample to C9: `game_started` moves the status out of `waiting`
(to `connected`) but leaves `joinCode` untouched — it stays `"ABC"` instead
of being cleared to null. -/
theorem game_started_keeps_joinCode_cex :
    exJoinState.wsStatus = WsStatus.waiting ∧
    exJoinState.joinCode = some "ABC" ∧
    (step exJoinState (.recv (.game_started (some "B") (some 1)))).wsStatus =
      WsStatus.connected ∧
    (step exJoinState (.recv (.game_started (some "B") (some 1)))).joinCode = some "ABC" :=
  ⟨by decide, by decide, by decide, by decide⟩

/-- Reconciliation only ever clears the pending set. -/
lemma reconcile_preserves_other (x : ClientState) :
    (reconcile x).selectedCard = x.selectedCard ∧
    (reconcile x).captureOptions = x.captureOptions ∧
    (reconcile x).capturesLoaded = x.capturesLoaded ∧
    (reconcile x).gameState = x.gameState ∧
    (reconcile x).wsStatus = x.wsStatus ∧
    (reconcile x).errorMessage = x.errorMessage ∧
    (reconcile x).roundResult = x.roundResult ∧
    (reconcile x).joinCode = x.joinCode ∧
    (reconcile x).isWaiting = x.isWaiting := by
  rw [reconcile]
  split <;> exact ⟨rfl, rfl, rfl, rfl, rfl, rfl, rfl, rfl, rfl⟩

/-- C9 as amended: `game_started` does transition the session out of
`waiting` (status becomes `connected`, the waiting flag drops), but no
inbound message handler ever modifies `joinCode`; it is only written by
page-level code, so it is not cleared on leaving `waiting`. -/
theorem dispatch_never_clears_joinCode (s : ClientState) :
    (∀ m : InMsg, (stepRecv s m).1.joinCode = s.joinCode) ∧
    (∀ oid rnd, (stepRecv s (.game_started oid rnd)).1.wsStatus = WsStatus.connected ∧
      (stepRecv s (.game_started oid rnd)).1.isWaiting = false) := by
  constructor
  · intro m
    show (reconcile (dispatch s m).1).joinCode = s.joinCode
    rw [(reconcile_preserves_other _).2.2.2.2.2.2.2.1]
    cases m <;> rfl
  · intro oid rnd
    constructor
    · show (reconcile (dispatch s (.game_started oid rnd)).1).wsStatus = _
      rw [(reconcile_preserves_other _).2.2.2.2.1]
      rfl
    · show (reconcile (dispatch s (.game_started oid rnd)).1).isWaiting = _
      rw [(reconcile_preserves_other _).2.2.2.2.2.2.2.2]
      rfl

/-! ## C10 -/

/-- Claim C10: the `captures` handler unconditionally replaces
`captureOptions` with the payload's options and sets the loaded flag,
leaving selection, game state, status, error, round result — and, while a
selection is active, the pending set — untouched: a stale response is
applied to the current selection. -/
theorem captures_msg_unconditional (s : ClientState) (opts : List (List String)) :
    (stepRecv s (.captures opts)).1.captureOptions = opts ∧
    (stepRecv s (.captures opts)).1.capturesLoaded = true ∧
    (stepRecv s (.captures opts)).1.selectedCard = s.selectedCard ∧
    (stepRecv s (.captures opts)).1.gameState = s.gameState ∧
    (stepRecv s (.captures opts)).1.wsStatus = s.wsStatus ∧
    (stepRecv s (.captures opts)).1.errorMessage = s.errorMessage ∧
    (stepRecv s (.captures opts)).1.roundResult = s.roundResult ∧
    (s.selectedCard ≠ none →
      (stepRecv s (.captures opts)).1.pendingTableIds = s.pendingTableIds) := by
  have hp := reconcile_preserves_other (dispatch s (.captures opts)).1
  refine ⟨?_, ?_, ?_, ?_, ?_, ?_, ?_, fun h => ?_⟩
  · exact (hp.2.1 : _)
  · exact (hp.2.2.1 : _)
  · exact (hp.1 : _)
  · exact (hp.2.2.2.1 : _)
  · exact (hp.2.2.2.2.1 : _)
  · exact (hp.2.2.2.2.2.1 : _)
  · exact (hp.2.2.2.2.2.2.1 : _)
  · show (reconcile (dispatch s (.captures opts)).1).pendingTableIds = s.pendingTableIds
    rw [reconcile, if_neg (show ¬(dispatch s (.captures opts)).1.selectedCard = none from h)]
    rfl

/-- Witness for C10: a stale `captures` payload lands on the still-active
selection of `exC6State` without touching its pending ids. -/
theorem captures_msg_unconditional_witness :
    exC6State.selectedCard ≠ none ∧
    (stepRecv exC6State (.captures [["c9"]])).1.captureOptions = [["c9"]] ∧
    (stepRecv exC6State (.captures [["c9"]])).1.capturesLoaded = true ∧
    (stepRecv exC6State (.captures [["c9"]])).1.pendingTableIds =
      exC6State.pendingTableIds :=
  ⟨by decide, (captures_msg_unconditional exC6State [["c9"]]).1,
    (captures_msg_unconditional exC6State [["c9"]]).2.1,
    (captures_msg_unconditional exC6State [["c9"]]).2.2.2.2.2.2.2 (by decide)⟩
